import Mathlib

/-!
Verification of the `backup` package of go-sw/ntfs: the MS-BKUP stream
framing codec (header encode/decode) and the forward (`BackupUtil`) and
reverse (`RestoreUtil`) pipelines, shallowly embedded from
`src/backup/backup.go` and `src/backup/types.go`.

Conventions of the embedding:
* byte streams are `List Nat` with every element `< 256`; multi-byte
  integers are little-endian, as on the Windows targets the Go code
  compiles for (the struct punning through `unsafe.Pointer` reads the
  fields at offsets 0/4/8/16 of the 20-byte wire header);
* Go strings are modelled at the UTF-16 code-unit level as `List Nat`
  (the claims only involve ASCII, where Go's byte indexing and the
  code-unit view coincide);
* `io.EOF` and `io.ErrUnexpectedEOF` out of `io.ReadFull` (and a read
  of an exhausted `bytes.Reader`) are merged into one error value
  `GErr.insufficient`, since the Go code only ever tests for the pair;
* a Go runtime panic (out-of-range slice expression) is an explicit
  outcome, `GErr.goPanic` / `Option.none` for `extractStrmName`;
* the unbounded `for` loops of `BackupUtil.Read` and
  `RestoreUtil.Write` are given a fuel parameter; `none` means the
  fuel ran out, i.e. the loop made that many iterations without
  returning.
-/

/-- Pipeline state constants `strmState` / `dataState` from types.go. -/
inductive PState where
  | strm
  | data
deriving DecidableEq, Repr

/-- Error values circulating in the package: `io.EOF`/`io.ErrUnexpectedEOF`
(merged as `insufficient`), the two sentinel errors of types.go, the ad-hoc
odd-name-length error, the `windows.UTF16FromString` failure on an interior
NUL, the `windows.ERROR_SEEK` status, and a Go runtime panic. -/
inductive GErr where
  | insufficient
  | oddNameLen
  | emptyADSName
  | invalidName
  | skipHeader
  | errSeek
  | goPanic
deriving DecidableEq, Repr

/-- Constant `hdrSz` from types.go: fixed raw stream header size. -/
def hdrSz : Nat := 20

/-- Constant `offsetSz` from types.go: bytes used by the sparse block offset. -/
def offsetSz : Nat := 8

/-- Constant `BackupData` from types.go (`StreamType` iota value 1). -/
def backupData : Nat := 1

/-- Constant `BackupAlternateData` from types.go (`StreamType` iota value 4). -/
def backupAlternateData : Nat := 4

/-- Constant `BackupSparseBlock` from types.go (`StreamType` iota value 9). -/
def backupSparseBlock : Nat := 9

/-- Little-endian 4-byte encoding of a `uint32` field. -/
def le32 (n : Nat) : List Nat :=
  [n % 256, n / 256 % 256, n / 2 ^ 16 % 256, n / 2 ^ 24 % 256]

/-- Little-endian 8-byte encoding of a 64-bit field. -/
def le64 (n : Nat) : List Nat :=
  [n % 256, n / 256 % 256, n / 2 ^ 16 % 256, n / 2 ^ 24 % 256,
   n / 2 ^ 32 % 256, n / 2 ^ 40 % 256, n / 2 ^ 48 % 256, n / 2 ^ 56 % 256]

/-- Little-endian decoding of a byte list. -/
def fromLE (l : List Nat) : Nat :=
  l.foldr (fun b acc => b + 256 * acc) 0

/-- Two's-complement reading of a 64-bit wire value as a Go `int64`. -/
def wireToSize (n : Nat) : Int :=
  if n < 2 ^ 63 then (n : Int) else (n : Int) - 2 ^ 64

/-- Two's-complement 64-bit image of a Go `int64` value. -/
def sizeToWire (s : Int) : Nat :=
  (s % (2 ^ 64 : Int)).toNat

/-- The 20-byte base wire header: `WIN32_STREAM_ID` fields `StreamId`,
`StreamAttributes`, `Size`, `StreamNameSize` at offsets 0/4/8/16. -/
def mkBase (id attrs : Nat) (size : Int) (nameSize : Nat) : List Nat :=
  le32 id ++ le32 attrs ++ le64 (sizeToWire size) ++ le32 nameSize

/-- The UTF-16 code units of the ASCII suffix `:$DATA`. -/
def strmSuffix : List Nat := [58, 36, 68, 65, 84, 65]

/-- Function `extractStrmName` from backup.go.  `none` models the Go runtime panic
raised by the slice expression `s[1 : n-6]` when `n - 6 < 1`. -/
def extractStrmName (s : List Nat) : Option (List Nat) :=
  let n := s.length
  if n < 1 ∨ s.headD 0 ≠ 58 then some []
  else if n < 6 ∨ s.drop (n - 6) ≠ strmSuffix then some []
  else if 1 ≤ n - 6 then some ((s.drop 1).take (n - 6 - 1)) else none

/-- Model of `windows.UTF16ToString` on a code-unit list: truncate at the first NUL
(the UTF-16 to UTF-8 conversion itself is the identity at our code-unit
abstraction level). -/
def utf16ToGoString (units : List Nat) : List Nat :=
  units.takeWhile (· ≠ 0)

/-- The view `unsafe.Slice((*uint16)(...), nameSize/2)` of a byte buffer:
little-endian byte pairs as code units, a trailing odd byte ignored. -/
def bytesToU16 : List Nat → List Nat
  | b0 :: b1 :: rest => (b0 + 256 * b1) :: bytesToU16 rest
  | _ => []

/-- Little-endian bytes of a code-unit list (the in-memory image of a
`[]uint16` reinterpreted as bytes). -/
def u16ToBytes : List Nat → List Nat
  | [] => []
  | u :: us => u % 256 :: u / 256 % 256 :: u16ToBytes us

/-- The wire wrapping `":" + name + ":$DATA"` done by `ToBytes`. -/
def wrapName (nm : List Nat) : List Nat :=
  58 :: (nm ++ strmSuffix)

/-- Structure `BackupHeader` from backup.go, with the unexported `fullSize` and
`active` fields. -/
structure BackupHeader where
  Id : Nat
  Attributes : Nat
  Size : Int
  Name : List Nat
  SparseOffset : Nat
  fullSize : Nat
  active : Bool
deriving DecidableEq, Repr

/-- The zero value `BackupHeader{}` that `NewBackupUtil` / `NewRestoreUtil`
allocate. -/
def hdr0 : BackupHeader :=
  ⟨0, 0, 0, [], 0, 0, false⟩

/-- Result of `(*BackupHeader).fill`: the (in-place mutated) header, the
bytes left in the reader, and the returned error if any. -/
structure FillOut where
  hdr : BackupHeader
  rest : List Nat
  err : Option GErr
deriving DecidableEq, Repr

/-- Model of `io.ReadFull` on a list source: on success the n bytes read and the
remaining source; on failure (fewer than n bytes available) the whole
source is consumed and `io.EOF`/`io.ErrUnexpectedEOF` is reported. -/
def readFull (n : Nat) (src : List Nat) : Option (List Nat × List Nat) :=
  if n ≤ src.length then some (src.take n, src.drop n) else none

/-- Method `(*BackupHeader).fill` from backup.go: clear `Name`/`SparseOffset`,
read the 20-byte base header, then the type-specific extra field; `active`
is set only on the success paths. -/
def BackupHeader.fill (hdr : BackupHeader) (src : List Nat) : FillOut :=
  let hdr := { hdr with Name := [], SparseOffset := 0 }
  match readFull hdrSz src with
  | none => ⟨hdr, [], some .insufficient⟩
  | some (buf, rest) =>
    let id := fromLE (buf.take 4)
    let attrs := fromLE ((buf.drop 4).take 4)
    let size := wireToSize (fromLE ((buf.drop 8).take 8))
    let nameSize := fromLE ((buf.drop 16).take 4)
    let hdr := { hdr with Id := id, Attributes := attrs, Size := size, fullSize := hdrSz }
    if id = backupAlternateData then
      if nameSize ≠ 0 then
        if nameSize % 2 ≠ 0 then ⟨hdr, rest, some .oddNameLen⟩
        else
          match readFull nameSize rest with
          | none => ⟨hdr, [], some .insufficient⟩
          | some (nbuf, rest2) =>
            match extractStrmName (utf16ToGoString (bytesToU16 nbuf)) with
            | none => ⟨hdr, rest2, some .goPanic⟩
            | some nm =>
              ⟨{ hdr with Name := nm, fullSize := hdrSz + nameSize, active := true }, rest2, none⟩
      else ⟨hdr, rest, some .emptyADSName⟩
    else if id = backupSparseBlock then
      match readFull offsetSz rest with
      | none => ⟨hdr, [], some .insufficient⟩
      | some (obuf, rest2) =>
        ⟨{ hdr with
            SparseOffset := fromLE obuf
            Size := size - (offsetSz : Int)
            fullSize := hdrSz + offsetSz
            active := true }, rest2, none⟩
    else ⟨{ hdr with active := true }, rest, none⟩

/-- Method `(*BackupHeader).ToBytes` from backup.go.  Note the `Size` field is
emitted unchanged for every stream type: the sparse-block branch only
appends the offset bytes and does not add `offsetSz` back to `Size`. -/
def BackupHeader.ToBytes (hdr : BackupHeader) : Except GErr (List Nat) :=
  if hdr.Id = backupAlternateData then
    if hdr.Name.length = 0 then .error .emptyADSName
    else if hdr.Name.contains 0 then .error .invalidName
    else
      let extra := u16ToBytes (wrapName hdr.Name)
      .ok (mkBase hdr.Id hdr.Attributes hdr.Size extra.length ++ extra)
  else if hdr.Id = backupSparseBlock then
    .ok (mkBase hdr.Id hdr.Attributes hdr.Size 0 ++ le64 hdr.SparseOffset)
  else
    .ok (mkBase hdr.Id hdr.Attributes hdr.Size 0)

/-- State of a `BackupUtil` (forward pipeline) whose source `r` is an
in-memory byte buffer read sequentially (`bytes.Reader` semantics), with
the default `Handler`. -/
structure BUState where
  src : List Nat
  hdr : BackupHeader
  bytesLeft : Int
  lastErr : Option GErr
  state : PState
  leftData : List Nat
deriving DecidableEq, Repr

instance : Inhabited BUState :=
  ⟨⟨[], hdr0, 0, none, .strm, []⟩⟩

/-- The state `NewBackupUtil` builds over a given source buffer. -/
def buInit (src : List Nat) : BUState :=
  ⟨src, hdr0, 0, none, .strm, []⟩

/-- Method `(*BackupUtil).handleRead` from backup.go, specialised to the default
handler (which prepends the re-encoded header bytes while the header is
active and propagates `ctx.LastErr`).  `pcap` is `len(p)`, the caller's
buffer length; the delivered bytes are returned as a list. -/
def handleRead (st : BUState) (pcap : Nat) : (List Nat × Option GErr) × BUState :=
  let readSize0 : Int := min (pcap : Int) st.bytesLeft
  let readSize : Int :=
    if st.hdr.active ∧ st.bytesLeft > (pcap : Int) then readSize0 - (st.hdr.fullSize : Int)
    else readSize0
  if readSize > 0 then
    let k := readSize.toNat
    let chunk := st.src.take k
    let src' := st.src.drop k
    let lastErr : Option GErr := if chunk.length = 0 then some .insufficient else none
    let st1 := { st with src := src', lastErr := lastErr }
    let handled : Except GErr (List Nat) :=
      if st1.hdr.active then
        match st1.hdr.ToBytes with
        | .error e => .error e
        | .ok hb =>
          match lastErr with
          | some e => .error e
          | none => .ok (hb ++ chunk)
      else
        match lastErr with
        | some e => .error e
        | none => .ok chunk
    match handled with
    | .error e => (([], some e), st1)
    | .ok buf =>
      let st2 := { st1 with bytesLeft := st1.bytesLeft - chunk.length }
      let delivered := buf.take pcap
      (((delivered, none)), { st2 with leftData := buf.drop pcap })
  else
    match st.hdr.ToBytes with
    | .error e => (([], some e), st)
    | .ok buf =>
      let delivered := buf.take pcap
      ((delivered, none), { st with leftData := buf.drop pcap })

/-- Method `(*BackupUtil).Read` from backup.go: serve pending leftover bytes
first, otherwise run the `{strmState, dataState}` machine; fuelled. -/
def backupRead : Nat → BUState → Nat → Option ((List Nat × Option GErr) × BUState)
  | 0, _, _ => none
  | fuel + 1, st, pcap =>
    if st.leftData ≠ [] then
      some ((st.leftData.take pcap, none), { st with leftData := st.leftData.drop pcap })
    else
      match st.state with
      | .strm =>
        let fo := st.hdr.fill st.src
        match fo.err with
        | some e => some (([], some e), { st with hdr := fo.hdr, src := fo.rest })
        | none =>
          backupRead fuel
            { st with hdr := fo.hdr, src := fo.rest, state := .data, bytesLeft := fo.hdr.Size } pcap
      | .data =>
        if st.bytesLeft = 0 then
          backupRead fuel { st with state := .strm } pcap
        else
          let ((out, err), st') := handleRead st pcap
          some ((out, err), { st' with hdr := { st'.hdr with active := false } })

/-- Method `(*BackupUtil).Seek` from backup.go.  The underlying seek is an
abstract parameter `uSeek` acting on the source buffer, returning the
moved amount, an optional status error, and the new source. -/
def backupSeek (st : BUState) (uSeek : Int → List Nat → Int × Option GErr × List Nat)
    (offset : Int) : (Int × Option GErr) × BUState :=
  if st.state = .strm then ((0, some .skipHeader), st)
  else
    let (ret, e, src') := uSeek offset st.src
    let st1 := { st with src := src', lastErr := e, bytesLeft := st.bytesLeft - ret }
    match e with
    | none => ((ret, none), st1)
    | some .errSeek =>
      ((st1.bytesLeft, none), { st1 with bytesLeft := 0, state := .strm })
    | some e' => ((ret, some e'), st1)

/-- State of a `RestoreUtil` (reverse pipeline) whose sink `w` is an
in-memory byte buffer appended to (never failing, never short), with the
default `Handler` and default `WriteCb`. -/
structure RUState where
  sink : List Nat
  hdr : BackupHeader
  bytesLeft : Int
  lastErr : Option GErr
  state : PState
  hdrData : List Nat
deriving DecidableEq, Repr

instance : Inhabited RUState :=
  ⟨⟨[], hdr0, 0, none, .strm, []⟩⟩

/-- The state `NewRestoreUtil` builds over an empty sink buffer. -/
def ruInit : RUState :=
  ⟨[], hdr0, 0, none, .strm, []⟩

/-- Method `(*RestoreUtil).handleWrite` from backup.go with the default handler
and write callback: transform the chunk (header bytes prepended while
active), append the result to the sink, and account consumed bytes as
`fullSize` (when active) plus the chunk length. -/
def handleWrite (st : RUState) (chunk : List Nat) : Except GErr (Nat × RUState) :=
  let pLen := chunk.length
  let handled : Except GErr (List Nat) :=
    if st.hdr.active then
      match st.hdr.ToBytes with
      | .error e => .error e
      | .ok hb =>
        match st.lastErr with
        | some e => .error e
        | none => .ok (hb ++ chunk)
    else
      match st.lastErr with
      | some e => .error e
      | none => .ok chunk
  match handled with
  | .error e => .error e
  | .ok buf =>
    let consumed := (if st.hdr.active then st.hdr.fullSize else 0) + pLen
    .ok (consumed, { st with sink := st.sink ++ buf, bytesLeft := st.bytesLeft - pLen })

/-- Go slice expression `l[a:b]` with `Int` indices: `none` models the
runtime panic on `a > b`, `b > len(l)` or a negative index. -/
def goSlice (a b : Int) (l : List Nat) : Option (List Nat) :=
  if 0 ≤ a ∧ a ≤ b ∧ b ≤ (l.length : Int) then
    some ((l.drop a.toNat).take (b - a).toNat)
  else none

/-- The `for consumed < inputLen` loop of `(*RestoreUtil).Write`,
fuelled.  `p` is the current (re-sliced) input, `startOffset` and
`consumed` the loop-local variables, `inputLen` the original input
length. -/
def restoreWriteLoop :
    Nat → RUState → List Nat → Int → Nat → Nat → Option ((Nat × Option GErr) × RUState)
  | 0, _, _, _, _, _ => none
  | fuel + 1, st, p, startOffset, consumed, inputLen =>
    if consumed < inputLen then
      match st.state with
      | .strm =>
        let hd := st.hdrData ++ p
        let fo := st.hdr.fill hd
        match fo.err with
        | some .insufficient =>
          some ((inputLen, none), { st with hdrData := hd, hdr := fo.hdr })
        | some e =>
          some ((0, some e), { st with hdrData := hd, hdr := fo.hdr })
        | none =>
          let fs := fo.hdr.fullSize
          let so : Int := min (fs : Int) ((fs : Int) - ((hd.length : Int) - (inputLen : Int)))
          restoreWriteLoop fuel
            { st with hdr := fo.hdr, hdrData := [], state := .data, bytesLeft := fo.hdr.Size }
            p so consumed inputLen
      | .data =>
        if st.bytesLeft = 0 then
          restoreWriteLoop fuel { st with state := .strm } p startOffset consumed inputLen
        else
          let endOffset : Int := min (p.length : Int) (startOffset + st.bytesLeft)
          match goSlice startOffset endOffset p with
          | none => some ((0, some .goPanic), st)
          | some chunk =>
            match handleWrite st chunk with
            | .error e => some ((consumed, some e), st)
            | .ok (n, st') =>
              let st'' := { st' with hdr := { st'.hdr with active := false } }
              let consumed' := consumed + n
              if n < p.length then
                restoreWriteLoop fuel st'' (p.drop n) startOffset consumed' inputLen
              else if endOffset < (p.length : Int) then
                restoreWriteLoop fuel
                  { st'' with hdrData := (p.drop endOffset.toNat) } p startOffset consumed' inputLen
              else
                restoreWriteLoop fuel st'' p startOffset consumed' inputLen
    else
      some ((min consumed inputLen, none), st)

/-- Method `(*RestoreUtil).Write` from backup.go, fuelled. -/
def restoreWrite (fuel : Nat) (st : RUState) (p : List Nat) :
    Option ((Nat × Option GErr) × RUState) :=
  restoreWriteLoop fuel st p 0 0 p.length

/-- Method `(*RestoreUtil).Seek` from backup.go, with the underlying seek
abstract as in `backupSeek` (acting on the sink buffer). -/
def restoreSeek (st : RUState) (uSeek : Int → List Nat → Int × Option GErr × List Nat)
    (offset : Int) : (Int × Option GErr) × RUState :=
  if st.state = .strm then ((0, some .skipHeader), st)
  else
    let (ret, e, sink') := uSeek offset st.sink
    let st1 := { st with sink := sink', lastErr := e, bytesLeft := st.bytesLeft - ret }
    match e with
    | none => ((ret, none), st1)
    | some .errSeek =>
      ((st1.bytesLeft, none), { st1 with bytesLeft := 0, state := .strm })
    | some e' => ((ret, some e'), st1)

/-- Convenience: result of a fuelled `restoreWrite`, defaulting on fuel
exhaustion (never hit in the concrete runs below). -/
def runRW (fuel : Nat) (st : RUState) (p : List Nat) : (Nat × Option GErr) × RUState :=
  (restoreWrite fuel st p).getD ((0, none), st)

/-- Convenience: result of a fuelled `backupRead`, defaulting on fuel
exhaustion (never hit in the concrete runs below). -/
def runBR (fuel : Nat) (st : BUState) (pcap : Nat) : (List Nat × Option GErr) × BUState :=
  (backupRead fuel st pcap).getD (([], none), st)

/-! ### Helper lemmas about the wire encoding -/

theorem mkBase_length (i a : Nat) (s : Int) (ns : Nat) :
    (mkBase i a s ns).length = hdrSz := rfl

theorem readFull_exact (n : Nat) (l extra : List Nat) (h : l.length = n) :
    readFull n (l ++ extra) = some (l, extra) := by
  unfold readFull
  rw [if_pos (by simp [h]), List.take_left' h, List.drop_left' h]

theorem mkBase_take4 (i a : Nat) (s : Int) (ns : Nat) :
    (mkBase i a s ns).take 4 = le32 i := rfl

theorem mkBase_drop4_take4 (i a : Nat) (s : Int) (ns : Nat) :
    ((mkBase i a s ns).drop 4).take 4 = le32 a := rfl

theorem mkBase_drop8_take8 (i a : Nat) (s : Int) (ns : Nat) :
    ((mkBase i a s ns).drop 8).take 8 = le64 (sizeToWire s) := rfl

theorem mkBase_drop16_take4 (i a : Nat) (s : Int) (ns : Nat) :
    ((mkBase i a s ns).drop 16).take 4 = le32 ns := rfl

theorem fromLE_le32 (n : Nat) : fromLE (le32 n) = n % 2 ^ 32 := by
  simp only [le32, fromLE, List.foldr_cons, List.foldr_nil]
  omega

theorem fromLE_le64 (n : Nat) : fromLE (le64 n) = n % 2 ^ 64 := by
  simp only [le64, fromLE, List.foldr_cons, List.foldr_nil]
  omega

theorem wireToSize_roundtrip (s : Int) (h0 : 0 ≤ s) (h1 : s < 2 ^ 63) :
    wireToSize (sizeToWire s % 2 ^ 64) = s := by
  simp only [wireToSize, sizeToWire]
  split <;> omega

theorem u16ToBytes_length (units : List Nat) :
    (u16ToBytes units).length = 2 * units.length := by
  induction units with
  | nil => rfl
  | cons u us ih => simp only [u16ToBytes, List.length_cons, ih]; omega

theorem bytesToU16_u16ToBytes (units : List Nat) (h : ∀ u ∈ units, u < 2 ^ 16) :
    bytesToU16 (u16ToBytes units) = units := by
  induction units with
  | nil => rfl
  | cons u us ih =>
    have hu : u < 2 ^ 16 := h u (by simp)
    simp only [u16ToBytes, bytesToU16]
    rw [ih fun v hv => h v (by simp [hv])]
    congr 1
    omega

theorem utf16ToGoString_all_ne (units : List Nat) (h : ∀ u ∈ units, u ≠ 0) :
    utf16ToGoString units = units := by
  unfold utf16ToGoString
  rw [List.takeWhile_eq_self_iff.mpr]
  intro x hx
  simpa using h x hx

theorem extract_wrap (nm : List Nat) : extractStrmName (wrapName nm) = some nm := by
  unfold extractStrmName wrapName
  have hlen : (58 :: (nm ++ strmSuffix)).length = nm.length + 7 := by
    simp [strmSuffix]
  simp only [hlen, List.headD_cons]
  rw [if_neg (by omega), if_neg, if_pos (by omega)]
  · have h1 : nm.length + 7 - 6 - 1 = nm.length := by omega
    have h2 : (58 :: (nm ++ strmSuffix)).drop 1 = nm ++ strmSuffix := rfl
    rw [h2, h1, List.take_left]
  · push_neg
    refine ⟨by omega, ?_⟩
    have h3 : nm.length + 7 - 6 = nm.length + 1 := by omega
    rw [h3, List.drop_succ_cons, List.drop_left]

theorem readFull_all (n : Nat) (l : List Nat) (h : l.length = n) :
    readFull n l = some (l, []) := by
  have := readFull_exact n l [] h
  rwa [List.append_nil] at this

theorem wrapName_length (nm : List Nat) : (wrapName nm).length = nm.length + 7 := by
  simp [wrapName, strmSuffix]

theorem wrapName_units_lt (nm : List Nat) (h : ∀ u ∈ nm, u < 2 ^ 16) :
    ∀ u ∈ wrapName nm, u < 2 ^ 16 := by
  intro u hu
  simp only [wrapName, List.mem_cons, List.mem_append] at hu
  rcases hu with rfl | h1 | h2
  · decide
  · exact h u h1
  · fin_cases h2 <;> decide

theorem wrapName_units_ne (nm : List Nat) (h : ∀ u ∈ nm, 0 < u) :
    ∀ u ∈ wrapName nm, u ≠ 0 := by
  intro u hu
  simp only [wrapName, List.mem_cons, List.mem_append] at hu
  rcases hu with rfl | h1 | h2
  · decide
  · have := h u h1
    omega
  · fin_cases h2 <;> decide

/-! ### Concrete wire data used by the claim theorems -/

/-- A sparse-block wire header with on-wire `Size = 108` and offset 7. -/
def wire108 : List Nat := mkBase 9 0 108 0 ++ le64 7

/-- A decoded sparse-block header with logical `Size = 100` and offset 5. -/
def sparse100 : BackupHeader := ⟨9, 0, 100, [], 5, 0, false⟩

/-- Claim C1 (code_bug evidence).  Decoding the sparse-block wire header with
on-wire `Size = 108` does yield logical `Size = 100` and `SparseOffset = 7`,
but re-encoding it with `ToBytes` emits an on-wire `Size` field of `100`,
not the `108` the claim (and the spec's inverse requirement) demands:
`ToBytes` never adds the offset-field width back. -/
theorem sparse_reencode_keeps_logical_size :
    (BackupHeader.fill hdr0 wire108).err = none ∧
    (BackupHeader.fill hdr0 wire108).hdr.Size = 100 ∧
    (BackupHeader.fill hdr0 wire108).hdr.SparseOffset = 7 ∧
    (BackupHeader.fill hdr0 wire108).hdr.ToBytes =
      .ok (mkBase 9 0 100 0 ++ le64 7) ∧
    fromLE (((mkBase 9 0 100 0 ++ le64 7).drop 8).take 8) = 100 := by
  refine ⟨rfl, by decide, by decide, rfl, by decide⟩

/-- Claim C2 (counterexample).  Encoding the valid sparse-block header
`sparse100` (logical `Size = 100`) and decoding the produced bytes yields
`Size = 92`, so the encode/decode round trip does not preserve the logical
fields for sparse-block records. -/
theorem roundtrip_fails_for_sparse :
    sparse100.Size = 100 ∧
    (BackupHeader.fill hdr0 (sparse100.ToBytes.toOption.getD [])).err = none ∧
    (BackupHeader.fill hdr0 (sparse100.ToBytes.toOption.getD [])).hdr.Size = 92 := by
  refine ⟨rfl, rfl, by decide⟩

/-- Claim C4 (code_bug evidence).  `extractStrmName` on the 6-character
string `":$DATA"` takes both delimiter checks and then evaluates the slice
expression `s[1 : n-6]` with `n - 6 = 0 < 1`, a Go runtime panic (modelled
as `none`), instead of returning normally. -/
theorem extractStrmName_panics_on_bare_suffix :
    extractStrmName strmSuffix = none := by decide

/-! ### General characterizations of `fill` and `ToBytes` -/

/-- Running `fill` on an alternate-data wire header with a non-empty, even name
field that decodes (without panicking) to `nm`: success, with `Name := nm`
and the header activated. -/
theorem fill_alternate_ok (h : BackupHeader) (a ns : Nat) (s : Int) (extra : List Nat)
    (hns : ns < 2 ^ 32) (hne : ns ≠ 0) (hev : ns % 2 = 0) (hlen : extra.length = ns)
    (nm : List Nat)
    (hex : extractStrmName (utf16ToGoString (bytesToU16 extra)) = some nm) :
    h.fill (mkBase backupAlternateData a s ns ++ extra) =
      ⟨{ h with
          Id := backupAlternateData
          Attributes := fromLE (le32 a)
          Size := wireToSize (fromLE (le64 (sizeToWire s)))
          Name := nm
          SparseOffset := 0
          fullSize := hdrSz + ns
          active := true }, [], none⟩ := by
  unfold BackupHeader.fill
  rw [readFull_exact hdrSz _ extra (mkBase_length ..)]
  dsimp only []
  rw [mkBase_drop16_take4, fromLE_le32 ns, Nat.mod_eq_of_lt hns]
  rw [if_pos hne, if_neg (by omega : ¬ ns % 2 ≠ 0), readFull_all ns extra hlen]
  dsimp only []
  rw [hex]
  with_unfolding_all rfl

/-- Running `fill` on a wire header whose stream id is neither alternate-data nor
sparse-block: success with no extra field consumed. -/
theorem fill_other_ok (h : BackupHeader) (i a : Nat) (s : Int)
    (hi : i < 2 ^ 32) (h4 : i ≠ backupAlternateData) (h9 : i ≠ backupSparseBlock) :
    h.fill (mkBase i a s 0) =
      ⟨{ h with
          Id := i
          Attributes := fromLE (le32 a)
          Size := wireToSize (fromLE (le64 (sizeToWire s)))
          Name := []
          SparseOffset := 0
          fullSize := hdrSz
          active := true }, [], none⟩ := by
  unfold BackupHeader.fill
  rw [readFull_all hdrSz _ (mkBase_length ..)]
  dsimp only []
  rw [mkBase_take4, fromLE_le32 i, Nat.mod_eq_of_lt hi, if_neg h4, if_neg h9]
  with_unfolding_all rfl

/-- Running `fill` on an alternate-data wire header with odd `StreamNameSize = 3`:
the odd-name-length error, `active` untouched. -/
theorem fill_alt_odd (h : BackupHeader) (a : Nat) (s : Int) (rest : List Nat) :
    h.fill (mkBase backupAlternateData a s 3 ++ rest) =
      ⟨{ h with
          Id := backupAlternateData
          Attributes := fromLE (le32 a)
          Size := wireToSize (fromLE (le64 (sizeToWire s)))
          Name := []
          SparseOffset := 0
          fullSize := hdrSz }, rest, some .oddNameLen⟩ := by
  unfold BackupHeader.fill
  rw [readFull_exact hdrSz _ rest (mkBase_length ..)]
  with_unfolding_all rfl

/-- Running `fill` on an alternate-data wire header with `StreamNameSize = 0`:
the `ErrEmptyADSName` error, `active` untouched. -/
theorem fill_alt_empty (h : BackupHeader) (a : Nat) (s : Int) (rest : List Nat) :
    h.fill (mkBase backupAlternateData a s 0 ++ rest) =
      ⟨{ h with
          Id := backupAlternateData
          Attributes := fromLE (le32 a)
          Size := wireToSize (fromLE (le64 (sizeToWire s)))
          Name := []
          SparseOffset := 0
          fullSize := hdrSz }, rest, some .emptyADSName⟩ := by
  unfold BackupHeader.fill
  rw [readFull_exact hdrSz _ rest (mkBase_length ..)]
  with_unfolding_all rfl

/-- Running `ToBytes` on an alternate-data header with a non-empty, NUL-free name:
base header with the wrapped name appended. -/
theorem toBytes_alternate (hdr : BackupHeader) (hAD : hdr.Id = backupAlternateData)
    (hne : ¬ hdr.Name.length = 0) (h0 : ¬ hdr.Name.contains 0 = true) :
    hdr.ToBytes =
      .ok (mkBase hdr.Id hdr.Attributes hdr.Size (u16ToBytes (wrapName hdr.Name)).length ++
        u16ToBytes (wrapName hdr.Name)) := by
  unfold BackupHeader.ToBytes
  rw [if_pos hAD, if_neg hne, if_neg h0]

/-- Running `ToBytes` on a header that is neither alternate-data nor sparse-block:
the bare base header. -/
theorem toBytes_other (hdr : BackupHeader) (h4 : hdr.Id ≠ backupAlternateData)
    (h9 : hdr.Id ≠ backupSparseBlock) :
    hdr.ToBytes = .ok (mkBase hdr.Id hdr.Attributes hdr.Size 0) := by
  unfold BackupHeader.ToBytes
  rw [if_neg h4, if_neg h9]

/-- Claim C6 (confirmed).  Decoding an alternate-data header whose
`StreamNameSize` is 3 (odd) fails with the odd-name-length error, and one
whose `StreamNameSize` is 0 fails with `ErrEmptyADSName`; in both cases the
header is not activated (`active` stays `false`). -/
theorem fill_rejects_odd_and_zero_name_size
    (h : BackupHeader) (attrs : Nat) (s : Int) (rest : List Nat)
    (ha : h.active = false) :
    ((h.fill (mkBase backupAlternateData attrs s 3 ++ rest)).err = some .oddNameLen ∧
     (h.fill (mkBase backupAlternateData attrs s 3 ++ rest)).hdr.active = false) ∧
    ((h.fill (mkBase backupAlternateData attrs s 0 ++ rest)).err = some .emptyADSName ∧
     (h.fill (mkBase backupAlternateData attrs s 0 ++ rest)).hdr.active = false) := by
  rw [fill_alt_odd h attrs s rest, fill_alt_empty h attrs s rest]
  exact ⟨⟨rfl, ha⟩, ⟨rfl, ha⟩⟩

/-- Witness for `fill_rejects_odd_and_zero_name_size` at `hdr0`, zero
attributes, size 5, trailing bytes `[1,2,3]`. -/
theorem fill_rejects_odd_and_zero_name_size_witness :
    ((BackupHeader.fill hdr0 (mkBase backupAlternateData 0 5 3 ++ [1, 2, 3])).err =
        some .oddNameLen ∧
     (BackupHeader.fill hdr0 (mkBase backupAlternateData 0 5 3 ++ [1, 2, 3])).hdr.active =
        false) ∧
    ((BackupHeader.fill hdr0 (mkBase backupAlternateData 0 5 0 ++ [1, 2, 3])).err =
        some .emptyADSName ∧
     (BackupHeader.fill hdr0 (mkBase backupAlternateData 0 5 0 ++ [1, 2, 3])).hdr.active =
        false) :=
  fill_rejects_odd_and_zero_name_size hdr0 0 5 [1, 2, 3] rfl

/-- Claim C5 (counterexample).  An alternate-data wire header with a
present name field (`StreamNameSize = 2`) whose name `"A"` does not follow
the `:<name>:$DATA` convention decodes successfully (`err = none`) with an
empty `Name` and an activated header, instead of failing with
`ErrEmptyADSName`. -/
theorem fill_malformed_name_succeeds_concrete :
    (BackupHeader.fill hdr0 (mkBase 4 0 0 2 ++ [65, 0])).err = none ∧
    (BackupHeader.fill hdr0 (mkBase 4 0 0 2 ++ [65, 0])).hdr.Name = [] ∧
    (BackupHeader.fill hdr0 (mkBase 4 0 0 2 ++ [65, 0])).hdr.active = true := by
  refine ⟨rfl, by decide, by decide⟩

/-- Claim C5 (amended).  For an alternate-data record whose wire name field
is present (`StreamNameSize > 0`, even, within `uint32`) but decodes to a
string outside the `:<name>:$DATA` convention (`extractStrmName` returns
the empty name), `fill` succeeds with `Name = ""`; `ErrEmptyADSName` is
returned only when `StreamNameSize = 0`. -/
theorem fill_malformed_name_behavior
    (h : BackupHeader) (attrs : Nat) (s : Int) (nb : List Nat)
    (hne : nb.length ≠ 0) (hev : nb.length % 2 = 0) (hlt : nb.length < 2 ^ 32)
    (hmal : extractStrmName (utf16ToGoString (bytesToU16 nb)) = some []) :
    ((h.fill (mkBase backupAlternateData attrs s nb.length ++ nb)).err = none ∧
     (h.fill (mkBase backupAlternateData attrs s nb.length ++ nb)).hdr.Name = []) ∧
    (h.fill (mkBase backupAlternateData attrs s 0 ++ nb)).err = some .emptyADSName := by
  rw [fill_alternate_ok h attrs nb.length s nb hlt hne hev rfl [] hmal,
    fill_alt_empty h attrs s nb]
  exact ⟨⟨rfl, rfl⟩, rfl⟩

/-- Witness for `fill_malformed_name_behavior` at the name bytes of the
two-byte UTF-16 string `"A"`. -/
theorem fill_malformed_name_behavior_witness :
    ((BackupHeader.fill hdr0 (mkBase backupAlternateData 0 0 [65, 0].length ++ [65, 0])).err =
        none ∧
     (BackupHeader.fill hdr0
        (mkBase backupAlternateData 0 0 [65, 0].length ++ [65, 0])).hdr.Name = []) ∧
    (BackupHeader.fill hdr0 (mkBase backupAlternateData 0 0 0 ++ [65, 0])).err =
      some .emptyADSName :=
  fill_malformed_name_behavior hdr0 0 0 [65, 0] (by decide) (by decide) (by decide)
    (by decide)

/-- Claim C2 (amended).  For every valid header whose stream type is not
sparse-block (`Size` in `int64` range and non-negative, a non-empty NUL-free
BMP name exactly for alternate-data records, `SparseOffset = 0`, field
widths within their `uint32` wire fields), `ToBytes` succeeds and `fill` of
the produced bytes restores `Id`, `Attributes`, `Size`, `Name` and
`SparseOffset` exactly.  (For sparse-block headers the round trip instead
returns `Size - 8`, see `roundtrip_fails_for_sparse`.) -/
theorem header_roundtrip_nonsparse (h hdr : BackupHeader)
    (hid : hdr.Id < 2 ^ 32) (hnsp : hdr.Id ≠ backupSparseBlock)
    (hat : hdr.Attributes < 2 ^ 32)
    (hsz0 : 0 ≤ hdr.Size) (hsz1 : hdr.Size < 2 ^ 63)
    (hname : hdr.Id = backupAlternateData →
      hdr.Name ≠ [] ∧ ∀ u ∈ hdr.Name, 0 < u ∧ u < 2 ^ 16)
    (hname2 : hdr.Id ≠ backupAlternateData → hdr.Name = [])
    (hso : hdr.SparseOffset = 0)
    (hnb : 2 * (hdr.Name.length + 7) < 2 ^ 32) :
    ∃ w, hdr.ToBytes = .ok w ∧
      (h.fill w).err = none ∧
      (h.fill w).hdr.Id = hdr.Id ∧
      (h.fill w).hdr.Attributes = hdr.Attributes ∧
      (h.fill w).hdr.Size = hdr.Size ∧
      (h.fill w).hdr.Name = hdr.Name ∧
      (h.fill w).hdr.SparseOffset = hdr.SparseOffset := by
  have hAttr : fromLE (le32 hdr.Attributes) = hdr.Attributes := by
    rw [fromLE_le32, Nat.mod_eq_of_lt hat]
  have hSz : wireToSize (fromLE (le64 (sizeToWire hdr.Size))) = hdr.Size := by
    rw [fromLE_le64]
    exact wireToSize_roundtrip hdr.Size hsz0 hsz1
  by_cases hAD : hdr.Id = backupAlternateData
  · obtain ⟨hnm, hunits⟩ := hname hAD
    have hlen0 : ¬ hdr.Name.length = 0 := by
      simpa [List.length_eq_zero] using hnm
    have hcont : ¬ hdr.Name.contains 0 = true := by
      intro hmem
      exact absurd (hunits 0 (List.elem_iff.mp hmem)).1 (by omega)
    have hns : (u16ToBytes (wrapName hdr.Name)).length = 2 * (hdr.Name.length + 7) := by
      rw [u16ToBytes_length, wrapName_length]
    have hex : extractStrmName (utf16ToGoString (bytesToU16 (u16ToBytes (wrapName hdr.Name)))) =
        some hdr.Name := by
      rw [bytesToU16_u16ToBytes _ (wrapName_units_lt _ fun u hu => (hunits u hu).2),
        utf16ToGoString_all_ne _ (wrapName_units_ne _ fun u hu => (hunits u hu).1),
        extract_wrap]
    refine ⟨_, toBytes_alternate hdr hAD hlen0 hcont, ?_⟩
    have h1 : (u16ToBytes (wrapName hdr.Name)).length < 2 ^ 32 := by omega
    have h2 : (u16ToBytes (wrapName hdr.Name)).length ≠ 0 := by omega
    have h3 : (u16ToBytes (wrapName hdr.Name)).length % 2 = 0 := by omega
    rw [hAD, fill_alternate_ok h hdr.Attributes (u16ToBytes (wrapName hdr.Name)).length
      hdr.Size (u16ToBytes (wrapName hdr.Name)) h1 h2 h3 rfl hdr.Name hex]
    dsimp only []
    exact ⟨rfl, rfl, hAttr, hSz, rfl, hso.symm⟩
  · refine ⟨_, toBytes_other hdr hAD hnsp, ?_⟩
    rw [fill_other_ok h hdr.Id hdr.Attributes hdr.Size hid hAD hnsp]
    dsimp only []
    exact ⟨rfl, rfl, hAttr, hSz, (hname2 hAD).symm, hso.symm⟩

/-- Witness for `header_roundtrip_nonsparse` at an alternate-data header
named `"ads1"` with attributes 7 and size 10, decoded into a fresh header. -/
theorem header_roundtrip_nonsparse_witness :
    ∃ w, (⟨4, 7, 10, [97, 100, 115, 49], 0, 0, false⟩ : BackupHeader).ToBytes = .ok w ∧
      (BackupHeader.fill hdr0 w).err = none ∧
      (BackupHeader.fill hdr0 w).hdr.Id =
        (⟨4, 7, 10, [97, 100, 115, 49], 0, 0, false⟩ : BackupHeader).Id ∧
      (BackupHeader.fill hdr0 w).hdr.Attributes =
        (⟨4, 7, 10, [97, 100, 115, 49], 0, 0, false⟩ : BackupHeader).Attributes ∧
      (BackupHeader.fill hdr0 w).hdr.Size =
        (⟨4, 7, 10, [97, 100, 115, 49], 0, 0, false⟩ : BackupHeader).Size ∧
      (BackupHeader.fill hdr0 w).hdr.Name =
        (⟨4, 7, 10, [97, 100, 115, 49], 0, 0, false⟩ : BackupHeader).Name ∧
      (BackupHeader.fill hdr0 w).hdr.SparseOffset =
        (⟨4, 7, 10, [97, 100, 115, 49], 0, 0, false⟩ : BackupHeader).SparseOffset :=
  header_roundtrip_nonsparse hdr0 ⟨4, 7, 10, [97, 100, 115, 49], 0, 0, false⟩
    (by decide) (by decide) (by decide) (by decide) (by decide)
    (fun _ => ⟨by decide, by decide⟩) (fun hc => absurd rfl hc) (by decide) (by decide)

/-! ### Pipeline claims -/

/-- Claim C7 (confirmed).  A seek issued on either pipeline while it is in
`strmState` (awaiting a header) returns `(0, ErrSkipHeader)` immediately and
leaves the whole pipeline state — including the underlying source/sink,
which is never consulted (the equation holds for every `uSeek`) —
unchanged. -/
theorem seek_in_awaiting_header_fails
    (bst : BUState) (rst : RUState)
    (uR uW : Int → List Nat → Int × Option GErr × List Nat) (offR offW : Int)
    (hb : bst.state = .strm) (hr : rst.state = .strm) :
    backupSeek bst uR offR = ((0, some .skipHeader), bst) ∧
    restoreSeek rst uW offW = ((0, some .skipHeader), rst) := by
  unfold backupSeek restoreSeek
  rw [if_pos hb, if_pos hr]
  exact ⟨rfl, rfl⟩

/-- Witness for `seek_in_awaiting_header_fails` on two fresh pipelines over
a two-byte buffer, with an underlying seek that would move by the offset. -/
theorem seek_in_awaiting_header_fails_witness :
    backupSeek (buInit [1, 2]) (fun off s => (off, none, s)) 5 =
      ((0, some .skipHeader), buInit [1, 2]) ∧
    restoreSeek ruInit (fun off s => (off, none, s)) 7 =
      ((0, some .skipHeader), ruInit) :=
  seek_in_awaiting_header_fails (buInit [1, 2]) ruInit
    (fun off s => (off, none, s)) (fun off s => (off, none, s)) 5 7 rfl rfl

/-- Claim C8 (confirmed).  A `RestoreUtil.Write` call in `strmState` whose
accumulated bytes (retained partial buffer plus the new input) are still
insufficient to decode a header returns `(len(input), nil)`, retains the
accumulated bytes in the header-assembly buffer, stays in `strmState`, and
leaves the sink and `BytesLeft` untouched. -/
theorem write_retains_partial_header (st : RUState) (p : List Nat) (fuel : Nat)
    (hs : st.state = .strm)
    (hi : (st.hdr.fill (st.hdrData ++ p)).err = some .insufficient) :
    ∃ st', restoreWrite (fuel + 1) st p = some ((p.length, none), st') ∧
      st'.hdrData = st.hdrData ++ p ∧ st'.state = .strm ∧
      st'.sink = st.sink ∧ st'.bytesLeft = st.bytesLeft := by
  unfold restoreWrite restoreWriteLoop
  rcases Nat.eq_zero_or_pos p.length with h0 | hpos
  · have hp : p = [] := List.length_eq_zero.mp h0
    subst hp
    rw [if_neg (by omega)]
    exact ⟨st, rfl, by rw [List.append_nil], hs, rfl, rfl⟩
  · rw [if_pos (by omega), hs]
    dsimp only []
    rw [hi]
    exact ⟨_, rfl, rfl, rfl, rfl, rfl⟩

/-- Witness for `write_retains_partial_header`: a fresh `RestoreUtil` given
three bytes of a header. -/
theorem write_retains_partial_header_witness :
    ∃ st', restoreWrite 1 ruInit [1, 2, 3] = some (([1, 2, 3].length, none), st') ∧
      st'.hdrData = ruInit.hdrData ++ [1, 2, 3] ∧ st'.state = .strm ∧
      st'.sink = ruInit.sink ∧ st'.bytesLeft = ruInit.bytesLeft :=
  write_retains_partial_header ruInit [1, 2, 3] 0 rfl (by decide)

/-- A single data record with declared size 10; its payload has not been
read when the caller's buffer is smaller than the encoded header. -/
def src10 : List Nat := mkBase backupData 0 10 0 ++ [11, 12, 13, 14, 15, 16, 17, 18, 19, 20]

/-- Claim C9 (counterexample).  Reading the record of `src10` with a
5-byte caller buffer delivers only the first 5 bytes of the re-encoded
header, yet the `active` flag is already cleared while all 10 payload bytes
are still pending (`BytesLeft = 10`): `Active` is not "true exactly until
the payload has been fully consumed". -/
theorem active_cleared_with_payload_remaining :
    (runBR 10 (buInit src10) 5).2.hdr.active = false ∧
    (runBR 10 (buInit src10) 5).2.bytesLeft = 10 ∧
    (runBR 10 (buInit src10) 5).1 = ([1, 0, 0, 0, 0], none) ∧
    (runBR 10 (buInit src10) 5).2.leftData ≠ [] := by
  refine ⟨rfl, rfl, rfl, by decide⟩

/-- Claim C9 (amended).  `Active` is set when a header is decoded and is
cleared unconditionally at the end of the first delivery attempt
(`handleRead` call) for that header — whether or not that attempt succeeds
and regardless of how much payload remains. -/
theorem active_cleared_after_first_attempt
    (st : BUState) (pcap fuel : Nat)
    (hl : st.leftData = []) (hs : st.state = .data) (hb : ¬ st.bytesLeft = 0) :
    ∃ out err st', backupRead (fuel + 1) st pcap = some ((out, err), st') ∧
      st'.hdr.active = false := by
  unfold backupRead
  rw [hl, hs]
  dsimp only []
  rw [if_neg (by simp), if_neg hb]
  rcases hrw : handleRead st pcap with ⟨⟨out, err⟩, st2⟩
  exact ⟨out, err, _, rfl, rfl⟩

/-- Witness for `active_cleared_after_first_attempt`: mid-payload state of
the `src10` record, read with a 2-byte buffer. -/
theorem active_cleared_after_first_attempt_witness :
    ∃ out err st',
      backupRead (0 + 1)
        ⟨[11, 12, 13, 14, 15, 16, 17, 18, 19, 20], ⟨backupData, 0, 10, [], 0, hdrSz, true⟩,
          10, none, .data, []⟩ 2 = some ((out, err), st') ∧
      st'.hdr.active = false :=
  active_cleared_after_first_attempt
    ⟨[11, 12, 13, 14, 15, 16, 17, 18, 19, 20], ⟨backupData, 0, 10, [], 0, hdrSz, true⟩,
      10, none, .data, []⟩ 2 0 rfl rfl (by decide)

/-- The 20-byte wire encoding of a zero-size primary-data record. -/
def zeroRec : List Nat := mkBase backupData 0 0 0

/-- The header state decoded from `zeroRec`. -/
def zHdr : BackupHeader := ⟨backupData, 0, 0, [], 0, hdrSz, true⟩

/-- The `RestoreUtil` loop state right after decoding `zeroRec`
(`dataState`, `BytesLeft = 0`). -/
def zLoopData : RUState := ⟨[], zHdr, 0, none, .data, []⟩

/-- The write loop started in `zLoopData` on `zeroRec` cycles between
`dataState` (BytesLeft 0) and `strmState` (re-decoding the same header
from the un-advanced input) and never returns, for any amount of fuel. -/
theorem zeroRec_loop_stuck (k : Nat) :
    restoreWriteLoop k zLoopData zeroRec 20 0 20 = none := by
  induction k using Nat.strong_induction_on with
  | _ k ih =>
    rcases k with _ | _ | m
    · rfl
    · with_unfolding_all rfl
    · have e : restoreWriteLoop (m + 2) zLoopData zeroRec 20 0 20 =
          restoreWriteLoop m zLoopData zeroRec 20 0 20 := by
        with_unfolding_all rfl
      rw [e]
      exact ih m (by omega)

/-- Claim C10 (code_bug evidence).  `RestoreUtil.Write` on the wire bytes
of a record with `Size = 0` never returns: `consumed` is never advanced in
`strmState`, so after the `dataState → strmState` transition the same
20-byte header is appended to the assembly buffer and re-decoded forever
(the model returns `none` — fuel exhausted — for every fuel). -/
theorem write_zero_size_record_never_returns (fuel : Nat) :
    restoreWrite fuel ruInit zeroRec = none := by
  rcases fuel with _ | k
  · rfl
  · have e : restoreWrite (k + 1) ruInit zeroRec =
        restoreWriteLoop k zLoopData zeroRec 20 0 20 := by
      with_unfolding_all rfl
    rw [e]
    exact zeroRec_loop_stuck k

/-- Payload of record A (primary data, size 5). -/
def payloadA : List Nat := [1, 2, 3, 4, 5]

/-- Payload of record B (primary data, size 3). -/
def payloadB : List Nat := [6, 7, 8]

/-- Wire bytes of record A: header plus 5 payload bytes. -/
def wireA : List Nat := mkBase backupData 0 5 0 ++ payloadA

/-- Wire bytes of record B: header plus 3 payload bytes. -/
def wireB : List Nat := mkBase backupData 0 3 0 ++ payloadB

/-- The two-record stream written through the reverse pipeline. -/
def streamAB : List Nat := wireA ++ wireB

/-- First write chunk: the first 10 bytes (half of record A's header). -/
def chunkA : List Nat := streamAB.take 10

/-- Second write chunk: the remaining 38 bytes. -/
def chunkB : List Nat := streamAB.drop 10

/-- Claim C3 (code_bug evidence).  Writing the two-record stream
`streamAB` through `RestoreUtil.Write` in chunks of 10 and 38 bytes: both
calls report the full input consumed with no error, yet the sink ends up
holding only record A's 25 bytes — after completing A's header from the
retained partial buffer, the loop advances the input by `fullSize + 5 = 25`
bytes even though 10 of those header bytes came from the previous call,
skipping 10 bytes of record B's header.  Reading the sink back through
`BackupUtil.Read` yields record A and then end of input: record B is lost,
so the written sequence of records is not reproduced. -/
theorem chunked_write_read_drops_record :
    chunkA ++ chunkB = streamAB ∧
    (runRW 10 ruInit chunkA).1 = (10, none) ∧
    (runRW 10 (runRW 10 ruInit chunkA).2 chunkB).1 = (38, none) ∧
    (runRW 10 (runRW 10 ruInit chunkA).2 chunkB).2.sink = wireA ∧
    (runBR 10 (buInit wireA) 64).1 = (wireA, none) ∧
    (runBR 10 (runBR 10 (buInit wireA) 64).2 64).1 = ([], some .insufficient) := by
  exact ⟨List.take_append_drop 10 streamAB, rfl, rfl, rfl, rfl, rfl⟩
